import Mathlib

/-!
Shallow embedding of `src/scraper.py` (class `DataCenterScraper`) from the
De-Center repository, together with theorems settling the frozen claims about
its specification.

Strings are modelled as Lean `String` (lists of characters); the ASCII subset
of Python whitespace, lowercasing and digit classes is used, which covers every
constant appearing in the program.  HTTP fetching is modelled by an explicit
environment mapping each request to either a parsed document (a list of HTML
nodes) or `none` (any `requests.RequestException`: network error, timeout, or
the non-2xx statuses raised by `raise_for_status`).
-/

namespace DeCenter

/-- ASCII whitespace recognized by the Python regex class `\s` and by
`str.strip()` (space, tab, newline, carriage return, vertical tab, form feed). -/
def isPySpace (c : Char) : Bool :=
  c == ' ' || c == '\t' || c == '\n' || c == '\r' || c == '\x0b' || c == '\x0c'

/-- The sentence terminators of the regex `[.!?]\s+` in
`extract_claims_from_text`. -/
def isSentenceEnd (c : Char) : Bool :=
  c == '.' || c == '!' || c == '?'

/-- Remove trailing `isPySpace` characters (one half of Python `str.strip()`). -/
def dropTrailingSpaces (l : List Char) : List Char :=
  (l.reverse.dropWhile isPySpace).reverse

/-- Python `str.strip()` on the character list: remove leading and trailing
whitespace. -/
def pyStripList (l : List Char) : List Char :=
  (dropTrailingSpaces l).dropWhile isPySpace

/-- Python `str.strip()`. -/
def pyStrip (s : String) : String :=
  String.mk (pyStripList s.data)

/-- Python `str.lower()` (ASCII letters; every constant in the program is
ASCII). -/
def lowerStr (s : String) : String :=
  String.mk (s.data.map Char.toLower)

/-- `pat.isPrefixOf l` by plain character equality: does `l` start with `pat`? -/
def listStartsWith : List Char → List Char → Bool
  | [], _ => true
  | _ :: _, [] => false
  | p :: ps, c :: cs => p == c && listStartsWith ps cs

/-- Python substring test `needle in hay` on character lists. -/
def listContainsSub (needle : List Char) : List Char → Bool
  | [] => needle.isEmpty
  | c :: rest => listStartsWith needle (c :: rest) || listContainsSub needle rest

/-- Python `needle in hay` for strings (contiguous substring). -/
def strContains (hay needle : String) : Bool :=
  listContainsSub needle.data hay.data

/-- Python `s.startswith(pre)`. -/
def pyStartsWith (s pre : String) : Bool :=
  listStartsWith pre.data s.data

/-- Is the first character of the list a Python whitespace character? -/
def headIsSpace : List Char → Bool
  | c :: _ => isPySpace c
  | [] => false

/-- One pass of `re.split(r'[.!?]\s+', text)`.  The first argument is `true`
while the greedy `\s+` of a just-matched separator is still being consumed;
`acc` holds the characters of the current segment in reverse. -/
def splitAux : Bool → List Char → List Char → List String
  | _, [], acc => [String.mk acc.reverse]
  | true, c :: rest, acc =>
      if isPySpace c then splitAux true rest acc
      else if isSentenceEnd c && headIsSpace rest then
        String.mk acc.reverse :: splitAux true rest []
      else splitAux false rest (c :: acc)
  | false, c :: rest, acc =>
      if isSentenceEnd c && headIsSpace rest then
        String.mk acc.reverse :: splitAux true rest []
      else splitAux false rest (c :: acc)

/-- `re.split(r'[.!?]\s+', text)`: split on a sentence terminator that is
immediately followed by at least one whitespace character; the terminator and
the whole (greedy) whitespace run are consumed. -/
def splitSentences (text : String) : List String :=
  splitAux false text.data []

/-- A parsed HTML node as seen through the BeautifulSoup operations the
program uses: an element with a tag name, a `class` attribute list, other
attributes, and children, or a text node. -/
inductive Node where
  | elem (tag : String) (classes : List String) (attrs : List (String × String))
         (children : List Node)
  | text (s : String)
deriving Repr

mutual

/-- All descendants of a node in document (pre)order, the node itself
excluded — the iteration order of BeautifulSoup `find` / `find_all`. -/
def Node.subnodes : Node → List Node
  | .text _ => []
  | .elem _ _ _ cs => subnodesList cs

/-- Pre-order traversal of a forest: each root followed by its descendants. -/
def subnodesList : List Node → List Node
  | [] => []
  | n :: rest => n :: (Node.subnodes n ++ subnodesList rest)

end

mutual

/-- The text-node strings inside a node, in document order (BeautifulSoup
`strings` of a tag). -/
def Node.strings : Node → List String
  | .text s => [s]
  | .elem _ _ _ cs => stringsList cs

/-- The text-node strings of a forest in document order. -/
def stringsList : List Node → List String
  | [] => []
  | n :: rest => Node.strings n ++ stringsList rest

end

/-- Tag-name test (`find('td')` and friends match only elements). -/
def isTag (t : String) : Node → Bool
  | .elem tag _ _ _ => tag == t
  | .text _ => false

/-- `class_=c` test of BeautifulSoup: the element carries class `c`. -/
def hasClass (c : String) : Node → Bool
  | .elem _ classes _ _ => classes.contains c
  | .text _ => false

/-- BeautifulSoup `tag.find(...)`: the first descendant, in document order,
satisfying the predicate. -/
def Node.findFirst (p : Node → Bool) (n : Node) : Option Node :=
  n.subnodes.find? p

/-- BeautifulSoup `soup.find_all(...)` over a whole parsed document. -/
def findAllNodes (p : Node → Bool) (doc : List Node) : List Node :=
  (subnodesList doc).filter p

/-- Concatenation of a list of strings with no separator (`"".join`). -/
def joinAll (l : List String) : String :=
  String.mk (l.flatMap String.data)

/-- Concatenation with a separator between consecutive entries
(`separator.join`). -/
def joinSepList (sep : List Char) : List (List Char) → List Char
  | [] => []
  | [x] => x
  | x :: y :: rest => x ++ sep ++ joinSepList sep (y :: rest)

/-- `separator.join(strings)` for strings. -/
def joinSep (sep : String) (l : List String) : String :=
  String.mk (joinSepList sep.data (l.map String.data))

/-- BeautifulSoup `tag.get_text()`: all text-node strings joined with no
separator and no stripping. -/
def Node.textContent (n : Node) : String :=
  joinAll n.strings

/-- The stripped, non-empty text-node strings of a list of strings
(BeautifulSoup `stripped_strings`). -/
def strippedStrings (l : List String) : List String :=
  (l.map pyStrip).filter fun s => !(s == "")

/-- BeautifulSoup `tag.get_text(strip=True)`: stripped non-empty strings
joined with no separator. -/
def getTextStripped (n : Node) : String :=
  joinAll (strippedStrings n.strings)

/-- Attribute lookup on an element (`tag.get(name)`), `none` on a text node or
a missing attribute. -/
def attrValue (name : String) : Node → Option String
  | .elem _ _ attrs _ => (attrs.find? fun a => a.fst == name).map fun a => a.snd
  | .text _ => none

/-- `url = link['href'] if link and link.get('href') else None`: the href of an
optional anchor, with the empty string treated as falsy. -/
def hrefValue : Option Node → Option String
  | none => none
  | some link =>
    match attrValue "href" link with
    | some h => if h == "" then none else some h
    | none => none

/-- `self.base_urls` of `DataCenterScraper.__init__`. -/
def base_urls : List (String × String) :=
  [("sanjose_legistar", "https://sanjose.legistar.com"),
   ("santaclara_legistar", "https://santaclara.legistar.com"),
   ("svp_news", "https://www.siliconvalleypower.com/home/components/news/news"),
   ("sjce_news", "https://sanjosecleanenergy.org")]

/-- Python `dict.get` over an association list. -/
def lookupStr : List (String × String) → String → Option String
  | [], _ => none
  | (k, v) :: rest, key => if k == key then some v else lookupStr rest key

/-- Python `s.split(sep)[0]` for a non-empty separator: the characters before
the first occurrence of `sep`, the whole list when `sep` does not occur. -/
def takeBefore (sep : List Char) : List Char → List Char
  | [] => []
  | c :: rest =>
    if listStartsWith sep (c :: rest) then []
    else c :: takeBefore sep rest

/-- Python `s.split(sep)[0]` on strings. -/
def pySplitHead (s sep : String) : String :=
  String.mk (takeBefore sep.data s.data)

/-- `url = url if url.startswith('http') else base + url`, the relative-URL
resolution applied by both adapters. -/
def resolveUrl (base url : String) : String :=
  if pyStartsWith url "http" then url else base ++ url

/-- `self.keywords` of `DataCenterScraper.__init__`. -/
def keywords : List String :=
  ["data center", "datacenter", "rate increase", "rate hike",
   "grid upgrade", "infrastructure", "water restriction",
   "electricity load", "capacity", "resilience"]

/-- The fixed evidentiary word list of `extract_claims_from_text`. -/
def strongWords : List String :=
  ["must", "require", "will", "shall", "project"]

/-- One extracted claim dictionary of `extract_claims_from_text`.
`extracted_at` (`datetime.now().isoformat()`) is modelled as an ambient
timestamp string passed in by the caller. -/
structure Claim where
  text : String
  source_url : String
  source_title : String
  extracted_at : String
deriving DecidableEq, Repr

/-- `DataCenterScraper.extract_claims_from_text`: sentence-segment the text,
strip each sentence, drop those shorter than 20 characters, keep those whose
lowercased form contains a configured keyword and which additionally contain a
digit or (lowercased) one of the strong words. -/
def extract_claims_from_text (now text source_url source_title : String) :
    List Claim :=
  (splitSentences text).filterMap fun raw =>
    let sentence := pyStrip raw
    if sentence.length < 20 then none
    else if keywords.any fun kw => strContains (lowerStr sentence) kw then
      if sentence.data.any Char.isDigit
          || strongWords.any fun w => strContains (lowerStr sentence) w then
        some { text := sentence, source_url := source_url,
               source_title := source_title, extracted_at := now }
      else none
    else none

/-- One result dictionary of either adapter.  `type` is
`"legistar_legislation"` or `"news"`; `origin` is the `city` key of a
legislative record or the `source` key of a news record; `search_term` is
present for legislative records only. -/
structure SourceRecord where
  type : String
  origin : String
  title : String
  url : Option String
  date : String
  search_term : Option String
deriving DecidableEq, Repr

/-- The fetch environment: each `requests.get` of the program, keyed by what
determines the request.  `legistarSoup city term` is the parsed register
search listing, `newsSoup source` the parsed news listing, `page url` the
parsed document behind a discovered URL; `none` models any
`requests.RequestException` (network error, timeout, or non-2xx status raised
by `raise_for_status`). -/
structure Env where
  legistarSoup : String → String → Option (List Node)
  newsSoup : String → Option (List Node)
  page : String → Option (List Node)

/-- `td.title` test of the register listing parser. -/
def isTitleCell (n : Node) : Bool :=
  isTag "td" n && hasClass "title" n

/-- `td.date` test of the register listing parser. -/
def isDateCell (n : Node) : Bool :=
  isTag "td" n && hasClass "date" n

/-- The body of the per-row `try` block of `search_legistar_legislation`:
`none` when the row has no title cell (the row is skipped). -/
def parseLegistarRow (base_url city search_term : String) (row : Node) :
    Option SourceRecord :=
  match row.findFirst isTitleCell with
  | none => none
  | some title_cell =>
    let title := getTextStripped title_cell
    let link := title_cell.findFirst (isTag "a")
    let url :=
      match hrefValue link with
      | some u => some (resolveUrl base_url u)
      | none => none
    let date_str :=
      match row.findFirst isDateCell with
      | some date_cell => getTextStripped date_cell
      | none => "N/A"
    some { type := "legistar_legislation", origin := city, title := title,
           url := url, date := date_str, search_term := some search_term }

/-- `DataCenterScraper.search_legistar_legislation`: look up the city base
URL (unknown city: empty result), fetch the search listing (failure: empty
result), and parse every `tr.row` that has a `td.title`.  The `days_back`
parameter is accepted but never used, exactly as in the source. -/
def search_legistar_legislation (env : Env) (city search_term : String)
    (days_back : Nat) : List SourceRecord :=
  match lookupStr base_urls (city ++ "_legistar") with
  | none => []
  | some base_url =>
    match env.legistarSoup city search_term with
    | none => []
    | some soup =>
      let rows := findAllNodes (fun n => isTag "tr" n && hasClass "row" n) soup
      rows.filterMap (parseLegistarRow base_url city search_term)

/-- The title-element test `article.find(['h3', 'h2', 'a'])` of the news
parser: any of the three tag names. -/
def isTitleCandidate (n : Node) : Bool :=
  isTag "h3" n || isTag "h2" n || isTag "a" n

/-- The body of the per-article `try` block of `search_news_sources`: `none`
when the article has no `h3`/`h2`/`a` descendant or its text contains no
configured keyword. -/
def parseNewsArticle (base source : String) (article : Node) :
    Option SourceRecord :=
  match article.findFirst isTitleCandidate with
  | none => none
  | some title_elem =>
    let title := getTextStripped title_elem
    let article_text := lowerStr article.textContent
    if !(keywords.any fun kw => strContains article_text kw) then none
    else
      let link := article.findFirst (isTag "a")
      let url :=
        match hrefValue link with
        | some u => some (resolveUrl base u)
        | none => none
      let date_str :=
        match article.findFirst (isTag "time") with
        | some d => getTextStripped d
        | none =>
          match article.findFirst (hasClass "date") with
          | some d => getTextStripped d
          | none => "N/A"
      some { type := "news", origin := source, title := title, url := url,
             date := date_str, search_term := none }

/-- `DataCenterScraper.search_news_sources`: only the `svp` and `sjce` keys
are recognized; fetch the listing (failure: empty result), take the `article`
elements falling back to `div.news-item`, and parse each block.  Relative URLs
are resolved against the listing URL cut before the first `/home`. -/
def search_news_sources (env : Env) (source : String) : List SourceRecord :=
  let urlOpt : Option String :=
    if source == "svp" then lookupStr base_urls "svp_news"
    else if source == "sjce" then lookupStr base_urls "sjce_news"
    else none
  match urlOpt with
  | none => []
  | some _ =>
    match env.newsSoup source with
    | none => []
    | some soup =>
      let arts := findAllNodes (isTag "article") soup
      let articles :=
        if arts.isEmpty then
          findAllNodes (fun n => isTag "div" n && hasClass "news-item" n) soup
        else arts
      let base :=
        pySplitHead
          (match lookupStr base_urls (source ++ "_news") with
           | some u => u
           | none => "") "/home"
      articles.filterMap (parseNewsArticle base source)

mutual

/-- `decompose()` of every `script` and `style` element: remove those whole
subtrees from a node. -/
def scrubNode : Node → Node
  | .text s => .text s
  | .elem t c a ch => .elem t c a (scrubList ch)

/-- Remove `script` and `style` subtrees from a forest. -/
def scrubList : List Node → List Node
  | [] => []
  | .text s :: rest => .text s :: scrubList rest
  | .elem t c a ch :: rest =>
    if t == "script" || t == "style" then scrubList rest
    else .elem t c a (scrubList ch) :: scrubList rest

end

/-- `DataCenterScraper.extract_text_from_url`: fetch the page (failure:
`None`), drop `script`/`style` subtrees, and join the stripped non-empty text
strings with newlines (`get_text(separator='\n', strip=True)`); an empty
result is `None`. -/
def extract_text_from_url (env : Env) (url : String) : Option String :=
  match env.page url with
  | none => none
  | some doc =>
    let cleaned := scrubList doc
    let text := joinSep "\n" (strippedStrings (stringsList cleaned))
    if text == "" then none else some text

/-- The per-source body of the claim-accumulation loop of `run_full_scrape`:
sources with a falsy (`None` or empty) URL are skipped, as are sources whose
text extraction fails. -/
def claimsForSource (env : Env) (now : String) (src : SourceRecord) :
    List Claim :=
  match src.url with
  | none => []
  | some u =>
    if u == "" then []
    else
      match extract_text_from_url env u with
      | none => []
      | some text => extract_claims_from_text now text u src.title

/-- The final report dictionary of `run_full_scrape`. -/
structure Report where
  sources : List SourceRecord
  claims : List Claim
  scraped_at : String
  total_sources : Nat
  total_claims : Nat
deriving DecidableEq, Repr

/-- `DataCenterScraper.run_full_scrape`: the register search for `sanjose`
then `santaclara` with search term `"data center"` (default lookback 90), then
the news search for `svp` then `sjce`; then claims accumulated over the
discovered sources in that order. -/
def run_full_scrape (env : Env) (now : String) : Report :=
  let all_sources :=
    search_legistar_legislation env "sanjose" "data center" 90
    ++ search_legistar_legislation env "santaclara" "data center" 90
    ++ search_news_sources env "svp"
    ++ search_news_sources env "sjce"
  let all_claims := all_sources.flatMap (claimsForSource env now)
  { sources := all_sources, claims := all_claims, scraped_at := now,
    total_sources := all_sources.length, total_claims := all_claims.length }

/-! ### Concrete documents and environments used by witnesses and
counterexamples -/

/-- A register listing row with a linked title and a date. -/
def rowFull : Node :=
  Node.elem "tr" ["row"] []
    [Node.elem "td" ["title"] []
      [Node.elem "a" [] [("href", "/LegislationDetail.aspx?ID=1")]
        [Node.text "Data center ordinance"]],
     Node.elem "td" ["date"] [] [Node.text "1/2/2025"]]

/-- The title cell of `rowNoLink`: title text, no anchor. -/
def tdTitleNoLink : Node :=
  Node.elem "td" ["title"] [] [Node.text "Capacity study session"]

/-- A register listing row with a title cell but no anchor. -/
def rowNoLink : Node :=
  Node.elem "tr" ["row"] []
    [tdTitleNoLink,
     Node.elem "td" ["date"] [] [Node.text "3/4/2025"]]

/-- A register listing page holding `rowFull` and `rowNoLink`. -/
def legistarPageDemo : List Node :=
  [Node.elem "table" [] [] [rowFull, rowNoLink]]

/-- The anchor of `articleDemo`, which precedes its `h3` in document order. -/
def linkElemDemo : Node :=
  Node.elem "a" [] [("href", "/news/1")] [Node.text "Read more"]

/-- A news article block whose first `h3`/`h2`/`a` descendant in document
order is the anchor `linkElemDemo`, while an `h3` with a different text occurs
later. -/
def articleDemo : Node :=
  Node.elem "article" [] []
    [linkElemDemo,
     Node.elem "h3" [] [] [Node.text "Grid upgrade planned"],
     Node.elem "p" [] [] [Node.text "New data center capacity will be added."]]

/-- A news listing page holding `articleDemo`. -/
def newsPageDemo : List Node :=
  [articleDemo]

/-- The document behind the resolved URL of `rowFull`: one long relevant
sentence. -/
def linkedDocDemo : List Node :=
  [Node.elem "html" [] []
    [Node.elem "body" [] []
      [Node.elem "p" [] []
        [Node.text "The data center will draw 30 MW from the grid."]]]]

/-- A demonstration environment: the `sanjose` register fetch and the `sjce`
news fetch fail, the `santaclara` register fetch returns `legistarPageDemo`,
the `svp` news fetch returns `newsPageDemo`, and the URL discovered from
`rowFull` resolves to `linkedDocDemo`. -/
def envDemo : Env where
  legistarSoup := fun city _ =>
    if city == "santaclara" then some legistarPageDemo else none
  newsSoup := fun source =>
    if source == "svp" then some newsPageDemo else none
  page := fun url =>
    if url == "https://santaclara.legistar.com/LegislationDetail.aspx?ID=1"
    then some linkedDocDemo else none

/-- A register listing row whose title cell holds no text at all. -/
def rowEmptyTitle : Node :=
  Node.elem "tr" ["row"] [] [Node.elem "td" ["title"] [] []]

/-- An environment whose `sanjose` register listing is the single row with an
empty title cell. -/
def envEmptyTitle : Env where
  legistarSoup := fun city _ =>
    if city == "sanjose" then some [rowEmptyTitle] else none
  newsSoup := fun _ => none
  page := fun _ => none

/-- Modelled from the spec for comparison with the code: locate a news
block's title element by the fixed preference order (level-3 heading, then
level-2 heading, then link), as the specification describes it. -/
def specPreferredTitleElem (article : Node) : Option Node :=
  match article.findFirst (isTag "h3") with
  | some n => some n
  | none =>
    match article.findFirst (isTag "h2") with
    | some n => some n
    | none => article.findFirst (isTag "a")

/-- Does the text contain a sentence terminator immediately followed by a
whitespace character (the only place `re.split` can cut)? -/
def hasSplitPoint : List Char → Bool
  | [] => false
  | c :: rest => (isSentenceEnd c && headIsSpace rest) || hasSplitPoint rest

/-- The claim produced by `extract_claims_from_text` in the standard C2 test
scenario. -/
def claimW : Claim :=
  { text := "The data center will require 50 MW of new capacity.",
    source_url := "https://example.com/p", source_title := "S",
    extracted_at := "T0" }

/-- The record emitted for `rowFull` when the `santaclara` register listing is
`legistarPageDemo`. -/
def recLegFull : SourceRecord :=
  { type := "legistar_legislation", origin := "santaclara",
    title := "Data center ordinance",
    url := some "https://santaclara.legistar.com/LegislationDetail.aspx?ID=1",
    date := "1/2/2025", search_term := some "data center" }

/-- The record emitted for `rowNoLink`. -/
def recLegNoLink : SourceRecord :=
  { type := "legistar_legislation", origin := "santaclara",
    title := "Capacity study session", url := none, date := "3/4/2025",
    search_term := some "data center" }

/-- The record emitted for `articleDemo` by the `svp` news search. -/
def recNewsDemo : SourceRecord :=
  { type := "news", origin := "svp", title := "Read more",
    url := some "https://www.siliconvalleypower.com/news/1", date := "N/A",
    search_term := none }

/-- The record emitted for `rowEmptyTitle`. -/
def recEmptyTitle : SourceRecord :=
  { type := "legistar_legislation", origin := "sanjose", title := "",
    url := none, date := "N/A", search_term := some "data center" }

/-- A news article block with no `h3`, `h2` or `a` descendant. -/
def articleNoTitle : Node :=
  Node.elem "article" [] [] [Node.elem "p" [] [] [Node.text "data center"]]

/-! ### Helper lemmas -/

theorem string_mk_data (s : String) : String.mk s.data = s := rfl

theorem string_data_append (a b : String) : (a ++ b).data = a.data ++ b.data := by
  cases a; cases b; rfl

theorem dropWhile_head_false {α : Type} (p : α → Bool) (l : List α) (c : α)
    (h : (l.dropWhile p).head? = some c) : p c = false := by
  have hd := List.head?_dropWhile_not p l
  rw [h] at hd
  exact hd

theorem dropWhile_of_head_false {α : Type} (p : α → Bool) (l : List α)
    (h : ∀ c, l.head? = some c → p c = false) : l.dropWhile p = l := by
  cases l with
  | nil => rfl
  | cons x xs => exact List.dropWhile_cons_of_neg (by simp [h x rfl])

theorem pyStripList_head_false (l : List Char) (c : Char)
    (h : (pyStripList l).head? = some c) : isPySpace c = false :=
  dropWhile_head_false isPySpace (dropTrailingSpaces l) c h

theorem pyStripList_getLast_false (l : List Char) (c : Char)
    (h : (pyStripList l).getLast? = some c) : isPySpace c = false := by
  have hx : (dropTrailingSpaces l).getLast? = some c := by
    have hsplit := List.takeWhile_append_dropWhile (p := isPySpace)
      (l := dropTrailingSpaces l)
    calc (dropTrailingSpaces l).getLast?
        = (((dropTrailingSpaces l).takeWhile isPySpace)
            ++ ((dropTrailingSpaces l).dropWhile isPySpace)).getLast? := by
          rw [hsplit]
      _ = some c := by
          rw [List.getLast?_append,
            show List.dropWhile isPySpace (dropTrailingSpaces l) = pyStripList l
              from rfl, h]
          rfl
  have h2 : (l.reverse.dropWhile isPySpace).head? = some c := by
    have hrev : (dropTrailingSpaces l).getLast?
        = (l.reverse.dropWhile isPySpace).head? := by
      unfold dropTrailingSpaces
      rw [List.getLast?_reverse]
    rw [← hrev]
    exact hx
  exact dropWhile_head_false isPySpace l.reverse c h2

theorem pyStrip_eq_self_of_ends (s : String)
    (hh : ∀ c, s.data.head? = some c → isPySpace c = false)
    (hg : ∀ c, s.data.getLast? = some c → isPySpace c = false) :
    pyStrip s = s := by
  unfold pyStrip pyStripList dropTrailingSpaces
  have h1 : s.data.reverse.dropWhile isPySpace = s.data.reverse :=
    dropWhile_of_head_false isPySpace s.data.reverse
      (fun c hc => hg c (by rwa [List.head?_reverse] at hc))
  rw [h1, List.reverse_reverse,
    dropWhile_of_head_false isPySpace s.data hh]

theorem pyStrip_idem (s : String) : pyStrip (pyStrip s) = pyStrip s :=
  pyStrip_eq_self_of_ends (pyStrip s)
    (fun c h => pyStripList_head_false s.data c h)
    (fun c h => pyStripList_getLast_false s.data c h)

theorem flatten_head_false (p : Char → Bool) (L : List (List Char))
    (h : ∀ e ∈ L, ∀ c, e.head? = some c → p c = false)
    (c : Char) (hc : L.flatten.head? = some c) : p c = false := by
  induction L with
  | nil => simp at hc
  | cons x rest ih =>
    rw [List.flatten_cons] at hc
    cases x with
    | nil =>
      rw [List.nil_append] at hc
      exact ih (fun e he d hed => h e (List.mem_cons_of_mem _ he) d hed) hc
    | cons a as =>
      have ha : a = c := by simpa using hc
      exact h (a :: as) (List.mem_cons_self _ _) c (by rw [ha]; rfl)

theorem flatten_getLast_false (p : Char → Bool) (L : List (List Char))
    (h : ∀ e ∈ L, ∀ c, e.getLast? = some c → p c = false)
    (c : Char) (hc : L.flatten.getLast? = some c) : p c = false := by
  induction L with
  | nil => simp at hc
  | cons x rest ih =>
    rw [List.flatten_cons, List.getLast?_append] at hc
    cases hrest : rest.flatten.getLast? with
    | some d =>
      rw [hrest] at hc
      have hd : d = c := by simpa using hc
      exact ih (fun e he b heb => h e (List.mem_cons_of_mem _ he) b heb)
        (hd ▸ hrest)
    | none =>
      rw [hrest] at hc
      have hx : x.getLast? = some c := by simpa using hc
      exact h x (List.mem_cons_self _ _) c hx

theorem strippedStrings_ends (xs : List String) (t : String)
    (ht : t ∈ strippedStrings xs) :
    (∀ c, t.data.head? = some c → isPySpace c = false)
    ∧ (∀ c, t.data.getLast? = some c → isPySpace c = false) := by
  have ht2 := List.mem_of_mem_filter ht
  obtain ⟨s, _, rfl⟩ := List.mem_map.mp ht2
  exact ⟨fun c h => pyStripList_head_false s.data c h,
         fun c h => pyStripList_getLast_false s.data c h⟩

theorem pyStrip_joinAll_strippedStrings (xs : List String) :
    pyStrip (joinAll (strippedStrings xs)) = joinAll (strippedStrings xs) := by
  apply pyStrip_eq_self_of_ends
  · intro c hc
    have hc2 : ((strippedStrings xs).map String.data).flatten.head? = some c := by
      rw [← List.flatMap_def]
      exact hc
    refine flatten_head_false isPySpace _ ?_ c hc2
    intro e he d hed
    obtain ⟨t, ht, rfl⟩ := List.mem_map.mp he
    exact (strippedStrings_ends xs t ht).1 d hed
  · intro c hc
    have hc2 : ((strippedStrings xs).map String.data).flatten.getLast? = some c := by
      rw [← List.flatMap_def]
      exact hc
    refine flatten_getLast_false isPySpace _ ?_ c hc2
    intro e he d hed
    obtain ⟨t, ht, rfl⟩ := List.mem_map.mp he
    exact (strippedStrings_ends xs t ht).2 d hed

theorem pyStrip_getTextStripped (n : Node) :
    pyStrip (getTextStripped n) = getTextStripped n :=
  pyStrip_joinAll_strippedStrings n.strings

theorem listStartsWith_append (p a b : List Char)
    (h : listStartsWith p a = true) : listStartsWith p (a ++ b) = true := by
  induction p generalizing a with
  | nil => rfl
  | cons x ps ih =>
    cases a with
    | nil => simp [listStartsWith] at h
    | cons y as =>
      simp only [listStartsWith, List.cons_append, Bool.and_eq_true] at h ⊢
      exact ⟨h.1, ih as h.2⟩

theorem pyStartsWith_append (a b pre : String)
    (h : pyStartsWith a pre = true) : pyStartsWith (a ++ b) pre = true := by
  unfold pyStartsWith at h ⊢
  rw [string_data_append]
  exact listStartsWith_append pre.data a.data b.data h

theorem resolveUrl_http (base u : String)
    (hb : pyStartsWith base "http" = true) :
    pyStartsWith (resolveUrl base u) "http" = true := by
  unfold resolveUrl
  split
  · assumption
  · exact pyStartsWith_append base u "http" hb

theorem lookup_base_urls_http (k v : String)
    (h : lookupStr base_urls k = some v) : pyStartsWith v "http" = true := by
  simp only [base_urls, lookupStr] at h
  split at h
  · exact Option.some.inj h ▸ (by decide)
  · split at h
    · exact Option.some.inj h ▸ (by decide)
    · split at h
      · exact Option.some.inj h ▸ (by decide)
      · split at h
        · exact Option.some.inj h ▸ (by decide)
        · exact absurd h (by simp)

theorem parseLegistarRow_title (base city term : String) (row : Node)
    (r : SourceRecord) (h : parseLegistarRow base city term row = some r) :
    ∃ tc, row.findFirst isTitleCell = some tc ∧ r.title = getTextStripped tc := by
  unfold parseLegistarRow at h
  cases htc : row.findFirst isTitleCell with
  | none => rw [htc] at h; exact absurd h (by simp)
  | some tc =>
    refine ⟨tc, rfl, ?_⟩
    simp only [htc, Option.some.injEq] at h
    rw [← h]

theorem parseLegistarRow_url (base city term : String) (row : Node)
    (r : SourceRecord) (hb : pyStartsWith base "http" = true)
    (h : parseLegistarRow base city term row = some r) :
    r.url = none ∨ ∃ u, r.url = some u ∧ pyStartsWith u "http" = true := by
  unfold parseLegistarRow at h
  cases htc : row.findFirst isTitleCell with
  | none => rw [htc] at h; exact absurd h (by simp)
  | some tc =>
    simp only [htc, Option.some.injEq] at h
    subst h
    cases href : hrefValue (tc.findFirst (isTag "a")) with
    | none => left; simp [href]
    | some u =>
      right
      exact ⟨resolveUrl base u, by simp [href], resolveUrl_http base u hb⟩

theorem parseNewsArticle_skip (base source : String) (article : Node)
    (h : article.findFirst isTitleCandidate = none) :
    parseNewsArticle base source article = none := by
  unfold parseNewsArticle
  rw [h]

theorem parseNewsArticle_title (base source : String) (article : Node)
    (r : SourceRecord) (h : parseNewsArticle base source article = some r) :
    ∃ te, article.findFirst isTitleCandidate = some te
      ∧ r.title = getTextStripped te := by
  unfold parseNewsArticle at h
  cases hte : article.findFirst isTitleCandidate with
  | none => rw [hte] at h; exact absurd h (by simp)
  | some te =>
    refine ⟨te, rfl, ?_⟩
    simp only [hte] at h
    split at h
    · exact absurd h (by simp)
    · simp only [Option.some.injEq] at h
      rw [← h]

theorem parseNewsArticle_url (base source : String) (article : Node)
    (r : SourceRecord) (hb : pyStartsWith base "http" = true)
    (h : parseNewsArticle base source article = some r) :
    r.url = none ∨ ∃ u, r.url = some u ∧ pyStartsWith u "http" = true := by
  unfold parseNewsArticle at h
  cases hte : article.findFirst isTitleCandidate with
  | none => rw [hte] at h; exact absurd h (by simp)
  | some te =>
    simp only [hte] at h
    split at h
    · exact absurd h (by simp)
    · simp only [Option.some.injEq] at h
      subst h
      cases href : hrefValue (article.findFirst (isTag "a")) with
      | none => left; simp [href]
      | some u =>
        right
        exact ⟨resolveUrl base u, by simp [href], resolveUrl_http base u hb⟩

theorem mem_extract_claims (now text u t : String) (c : Claim)
    (hc : c ∈ extract_claims_from_text now text u t) :
    ∃ s ∈ splitSentences text,
      c = { text := pyStrip s, source_url := u, source_title := t,
            extracted_at := now }
      ∧ ¬ (pyStrip s).length < 20
      ∧ (keywords.any fun kw => strContains (lowerStr (pyStrip s)) kw) = true
      ∧ ((pyStrip s).data.any Char.isDigit
          || strongWords.any fun w => strContains (lowerStr (pyStrip s)) w)
            = true := by
  unfold extract_claims_from_text at hc
  obtain ⟨s, hs, hf⟩ := List.mem_filterMap.mp hc
  refine ⟨s, hs, ?_⟩
  dsimp only [] at hf
  split at hf
  · exact absurd hf (by simp)
  · split at hf
    · split at hf
      · simp only [Option.some.injEq] at hf
        exact ⟨hf.symm, by assumption, by assumption, by assumption⟩
      · exact absurd hf (by simp)
    · exact absurd hf (by simp)

theorem isSentenceEnd_not_space (c : Char) (h : isSentenceEnd c = true) :
    isPySpace c = false := by
  simp only [isSentenceEnd, Bool.or_eq_true, beq_iff_eq] at h
  rcases h with (rfl | rfl) | rfl <;> rfl

theorem getLast?_cons_of_ne {α : Type} (a : α) (L : List α) (s : α)
    (h : L.getLast? = some s) : (a :: L).getLast? = some s := by
  cases L with
  | nil => simp at h
  | cons z zs => rw [List.getLast?_cons_cons]; exact h

theorem splitAux_no_split (l : List Char) (acc : List Char)
    (h : hasSplitPoint l = false) :
    splitAux false l acc = [String.mk (acc.reverse ++ l)] := by
  induction l generalizing acc with
  | nil => simp [splitAux]
  | cons c rest ih =>
    simp only [hasSplitPoint, Bool.or_eq_false_iff] at h
    simp only [splitAux, h.1, Bool.false_eq_true, if_false]
    rw [ih (c :: acc) h.2]
    simp [List.reverse_cons, List.append_assoc]

theorem splitAux_getLast_term (l : List Char) :
    ∀ (skip : Bool) (acc : List Char) (c : Char),
      l.getLast? = some c → isSentenceEnd c = true →
      ∃ s, (splitAux skip l acc).getLast? = some s
        ∧ s.data.getLast? = some c := by
  induction l with
  | nil => intro skip acc c h _; simp at h
  | cons x rest ih =>
    intro skip acc c hlast hterm
    cases rest with
    | nil =>
      have hx : x = c := by simpa using hlast
      subst hx
      have hsp : isPySpace x = false := isSentenceEnd_not_space x hterm
      cases skip with
      | true =>
        simp only [splitAux, hsp, Bool.false_eq_true, if_false, headIsSpace,
          Bool.and_false]
        exact ⟨String.mk (x :: acc).reverse, by simp [splitAux],
          by simp [List.reverse_cons, List.getLast?_concat]⟩
      | false =>
        simp only [splitAux, headIsSpace, Bool.and_false, Bool.false_eq_true,
          if_false]
        exact ⟨String.mk (x :: acc).reverse, by simp [splitAux],
          by simp [List.reverse_cons, List.getLast?_concat]⟩
    | cons y rest2 =>
      have hlast2 : (y :: rest2).getLast? = some c := by
        rwa [List.getLast?_cons_cons] at hlast
      cases skip with
      | true =>
        simp only [splitAux]
        split
        · exact ih true acc c hlast2 hterm
        · split
          · obtain ⟨s, hs, hsc⟩ := ih true [] c hlast2 hterm
            exact ⟨s, getLast?_cons_of_ne _ _ _ hs, hsc⟩
          · exact ih false (x :: acc) c hlast2 hterm
      | false =>
        simp only [splitAux]
        split
        · obtain ⟨s, hs, hsc⟩ := ih true [] c hlast2 hterm
          exact ⟨s, getLast?_cons_of_ne _ _ _ hs, hsc⟩
        · exact ih false (x :: acc) c hlast2 hterm

/-! ### Claim theorems -/

/-- C1: every Claim emitted by `extract_claims_from_text`, for any input text,
source URL and source title, has a trimmed text of length at least 20
characters whose lowercased form contains at least one of the ten configured
keyword phrases, and which additionally contains a digit or one of the
evidentiary words (must, require, will, shall, project) as a case-insensitive
substring. -/
theorem claims_C1 (now text source_url source_title : String) (c : Claim)
    (hc : c ∈ extract_claims_from_text now text source_url source_title) :
    pyStrip c.text = c.text
    ∧ 20 ≤ c.text.length
    ∧ (keywords.any fun kw => strContains (lowerStr c.text) kw) = true
    ∧ (c.text.data.any Char.isDigit = true
       ∨ (strongWords.any fun w => strContains (lowerStr c.text) w) = true) := by
  obtain ⟨s, _, rfl, hlen, hkw, hdig⟩ :=
    mem_extract_claims now text source_url source_title c hc
  refine ⟨pyStrip_idem s, Nat.le_of_not_lt hlen, hkw, ?_⟩
  rcases Bool.or_eq_true_iff.mp hdig with h | h
  · exact Or.inl h
  · exact Or.inr h

/-- Witness for C1: the claim extracted from a concrete one-sentence text
satisfies all four conjuncts. -/
theorem claims_C1_witness :
    pyStrip claimW.text = claimW.text
    ∧ 20 ≤ claimW.text.length
    ∧ (keywords.any fun kw => strContains (lowerStr claimW.text) kw) = true
    ∧ (claimW.text.data.any Char.isDigit = true
       ∨ (strongWords.any fun w => strContains (lowerStr claimW.text) w)
           = true) :=
  claims_C1 "T0" "The data center will require 50 MW of new capacity."
    "https://example.com/p" "S" claimW (by decide)

/-- C2: on the text "The data center will require 50 MW of new capacity. This
sentence has no keyword at all and is long.", `extract_claims_from_text`
returns exactly one Claim whose text is the first sentence, which contains
"data center", "will" and "50"; the second sentence contains no configured
keyword. -/
theorem claims_C2 (now u t : String) :
    extract_claims_from_text now
      "The data center will require 50 MW of new capacity. This sentence has no keyword at all and is long."
      u t
      = [{ text := "The data center will require 50 MW of new capacity",
           source_url := u, source_title := t, extracted_at := now }]
    ∧ (splitSentences
        "The data center will require 50 MW of new capacity. This sentence has no keyword at all and is long.").head?
        = some "The data center will require 50 MW of new capacity"
    ∧ strContains
        (lowerStr "The data center will require 50 MW of new capacity")
        "data center" = true
    ∧ strContains "The data center will require 50 MW of new capacity" "will"
        = true
    ∧ strContains "The data center will require 50 MW of new capacity" "50"
        = true
    ∧ (keywords.any fun kw =>
        strContains
          (lowerStr "This sentence has no keyword at all and is long.") kw)
        = false :=
  ⟨rfl, by decide, by decide, by decide, by decide, by decide⟩

/-- C5: `run_full_scrape` returns the legislative results for sanjose then
santaclara followed by the news results for svp then sjce; its claims are the
concatenation, in source order, of the claims of each source; and its
total fields are the lengths of the two sequences. -/
theorem claims_C5 (env : Env) (now : String) :
    (run_full_scrape env now).sources =
        search_legistar_legislation env "sanjose" "data center" 90
        ++ search_legistar_legislation env "santaclara" "data center" 90
        ++ search_news_sources env "svp"
        ++ search_news_sources env "sjce"
    ∧ (run_full_scrape env now).claims =
        (run_full_scrape env now).sources.flatMap (claimsForSource env now)
    ∧ (run_full_scrape env now).total_sources
        = (run_full_scrape env now).sources.length
    ∧ (run_full_scrape env now).total_claims
        = (run_full_scrape env now).claims.length :=
  ⟨rfl, rfl, rfl, rfl⟩

/-- C7: the `days_back` lookback parameter of the register search has no
effect: any two values give identical results for the same environment, city
and search term. -/
theorem claims_C7 (env : Env) (city search_term : String) (d1 d2 : Nat) :
    search_legistar_legislation env city search_term d1
      = search_legistar_legislation env city search_term d2 := rfl

/-- C3, counterexample: the news parser takes the first `h3`/`h2`/`a`
descendant in document order, not the preference order h3, h2, a claimed by
the specification: on `articleDemo` the emitted title is the link text
"Read more", while the preference order would pick the h3 text
"Grid upgrade planned". -/
theorem claims_C3_cex :
    (search_news_sources envDemo "svp").map (fun r => r.title) = ["Read more"]
    ∧ (specPreferredTitleElem articleDemo).map getTextStripped
        = some "Grid upgrade planned"
    ∧ ("Read more" : String) ≠ "Grid upgrade planned" :=
  ⟨rfl, rfl, by decide⟩

/-- C3, amended: the news adapter locates a block's title element as the first
descendant in document order whose tag is `h3`, `h2` or `a` (no preference
among the three); a block containing none of these yields no record, and the
emitted title is the stripped text of that first matching element. -/
theorem claims_C3 (base source : String) (article : Node) :
    (article.findFirst isTitleCandidate = none →
        parseNewsArticle base source article = none)
    ∧ (∀ te r, article.findFirst isTitleCandidate = some te →
        parseNewsArticle base source article = some r →
        r.title = getTextStripped te) := by
  constructor
  · exact parseNewsArticle_skip base source article
  · intro te r hte hr
    obtain ⟨te2, hte2, htitle⟩ := parseNewsArticle_title base source article r hr
    rw [hte, Option.some.injEq] at hte2
    rw [← hte2] at htitle
    exact htitle

/-- Witness for the amended C3: a block with no title element is skipped, and
the record of `articleDemo` carries the stripped text of its first matching
descendant (the anchor). -/
theorem claims_C3_witness :
    parseNewsArticle "https://www.siliconvalleypower.com" "svp" articleNoTitle
      = none
    ∧ recNewsDemo.title = getTextStripped linkElemDemo :=
  ⟨(claims_C3 "https://www.siliconvalleypower.com" "svp" articleNoTitle).1 rfl,
   (claims_C3 "https://www.siliconvalleypower.com" "svp" articleDemo).2
     linkElemDemo recNewsDemo rfl rfl⟩

/-- C4: every record of either adapter has an absent or http-prefixed URL; a
relative register link is resolved by prepending the jurisdiction base URL
(with the concrete example from the spec), and a relative news link is
resolved against the listing URL cut before the first "/home". -/
theorem claims_C4 :
    (∀ env city term days r,
        r ∈ search_legistar_legislation env city term days →
        r.url = none ∨ ∃ u, r.url = some u ∧ pyStartsWith u "http" = true)
    ∧ (∀ env source r, r ∈ search_news_sources env source →
        r.url = none ∨ ∃ u, r.url = some u ∧ pyStartsWith u "http" = true)
    ∧ resolveUrl "https://sanjose.legistar.com" "/LegislationDetail.aspx?ID=1"
        = "https://sanjose.legistar.com/LegislationDetail.aspx?ID=1"
    ∧ pySplitHead "https://www.siliconvalleypower.com/home/components/news/news"
        "/home" = "https://www.siliconvalleypower.com" := by
  refine ⟨?_, ?_, by decide, by decide⟩
  · intro env city term days r hr
    simp only [search_legistar_legislation] at hr
    split at hr
    · simp at hr
    · rename_i base hb
      split at hr
      · simp at hr
      · obtain ⟨row, _, hparse⟩ := List.mem_filterMap.mp hr
        exact parseLegistarRow_url base city term row r
          (lookup_base_urls_http _ _ hb) hparse
  · intro env source r hr
    simp only [search_news_sources] at hr
    split at hr
    · simp at hr
    · rename_i url hif
      split at hr
      · simp at hr
      · obtain ⟨article, _, hparse⟩ := List.mem_filterMap.mp hr
        split at hif
        · rename_i hsv
          have hs : source = "svp" := by simpa using hsv
          subst hs
          exact parseNewsArticle_url _ "svp" article r (by decide) hparse
        · split at hif
          · rename_i hsj
            have hs : source = "sjce" := by simpa using hsj
            subst hs
            exact parseNewsArticle_url _ "sjce" article r (by decide) hparse
          · exact absurd hif (by simp)

/-- Witness for C4: the concrete records produced under `envDemo` have
http-prefixed URLs. -/
theorem claims_C4_witness :
    (recLegFull.url = none
      ∨ ∃ u, recLegFull.url = some u ∧ pyStartsWith u "http" = true)
    ∧ (recNewsDemo.url = none
      ∨ ∃ u, recNewsDemo.url = some u ∧ pyStartsWith u "http" = true) :=
  ⟨claims_C4.1 envDemo "santaclara" "data center" 90 recLegFull (by decide),
   claims_C4.2.1 envDemo "svp" recNewsDemo (by decide)⟩

/-- C6: a failed fetch for one origin yields an empty list from that adapter
call without aborting, and the orchestrator still assembles the report from
the sibling origins (shown for a failing sanjose register fetch). -/
theorem claims_C6 (env : Env) (now : String) :
    (∀ city term days, env.legistarSoup city term = none →
        search_legistar_legislation env city term days = [])
    ∧ (∀ source, env.newsSoup source = none →
        search_news_sources env source = [])
    ∧ (env.legistarSoup "sanjose" "data center" = none →
        (run_full_scrape env now).sources =
          search_legistar_legislation env "santaclara" "data center" 90
          ++ search_news_sources env "svp"
          ++ search_news_sources env "sjce") := by
  have hleg : ∀ city term days, env.legistarSoup city term = none →
      search_legistar_legislation env city term days = [] := by
    intro city term days h
    unfold search_legistar_legislation
    cases hb : lookupStr base_urls (city ++ "_legistar") with
    | none => rfl
    | some base => rw [h]
  refine ⟨hleg, ?_, ?_⟩
  · intro source h
    simp only [search_news_sources, h]
    split <;> rfl
  · intro h
    have h1 := hleg "sanjose" "data center" 90 h
    rw [show (run_full_scrape env now).sources =
        search_legistar_legislation env "sanjose" "data center" 90
        ++ search_legistar_legislation env "santaclara" "data center" 90
        ++ search_news_sources env "svp"
        ++ search_news_sources env "sjce" from rfl, h1, List.nil_append]

/-- Witness for C6: under `envDemo` the sanjose register fetch fails, that
adapter call returns the empty list, and the full report still contains the
santaclara and svp records. -/
theorem claims_C6_witness :
    search_legistar_legislation envDemo "sanjose" "data center" 90 = []
    ∧ (run_full_scrape envDemo "T0").sources
        = [recLegFull, recLegNoLink, recNewsDemo] := by
  have h := claims_C6 envDemo "T0"
  refine ⟨h.1 "sanjose" "data center" 90 rfl, ?_⟩
  rw [h.2.2 rfl]
  rfl

/-- C8, counterexample: a register row whose title cell holds no text yields a
record with an empty title and no placeholder, refuting the claim that every
record has a non-empty title. -/
theorem claims_C8_cex :
    search_legistar_legislation envEmptyTitle "sanjose" "data center" 90
      = [recEmptyTitle]
    ∧ recEmptyTitle.title = "" :=
  ⟨rfl, rfl⟩

/-- C8, amended: every record emitted by either adapter has a trimmed title
string, which is exactly the stripped text of the located title element and
may be empty; no placeholder is substituted. -/
theorem claims_C8 :
    (∀ env city term days r,
        r ∈ search_legistar_legislation env city term days →
        pyStrip r.title = r.title)
    ∧ (∀ env source r, r ∈ search_news_sources env source →
        pyStrip r.title = r.title) := by
  constructor
  · intro env city term days r hr
    simp only [search_legistar_legislation] at hr
    split at hr
    · simp at hr
    · split at hr
      · simp at hr
      · obtain ⟨row, _, hparse⟩ := List.mem_filterMap.mp hr
        obtain ⟨tc, _, htitle⟩ := parseLegistarRow_title _ _ _ row r hparse
        rw [htitle]
        exact pyStrip_getTextStripped tc
  · intro env source r hr
    simp only [search_news_sources] at hr
    split at hr
    · simp at hr
    · split at hr
      · simp at hr
      · obtain ⟨article, _, hparse⟩ := List.mem_filterMap.mp hr
        obtain ⟨te, _, htitle⟩ := parseNewsArticle_title _ _ article r hparse
        rw [htitle]
        exact pyStrip_getTextStripped te

/-- Witness for the amended C8: the concrete record of `envDemo` has a
trimmed title. -/
theorem claims_C8_witness : pyStrip recLegFull.title = recLegFull.title :=
  claims_C8.1 envDemo "santaclara" "data center" 90 recLegFull (by decide)

/-- C9, counterexample: on a text with doubled terminators, the single
extracted Claim comes from the first of two sentences (hence a non-final
sentence) and its text ends with the terminator character, refuting "a Claim
produced from a non-final sentence never ends with its terminator". -/
theorem claims_C9_cex :
    (extract_claims_from_text "T0"
        "The data center capacity will grow.. Next part here ok." "u" "s").map
        (fun cl => cl.text)
      = ["The data center capacity will grow."]
    ∧ splitSentences "The data center capacity will grow.. Next part here ok."
      = ["The data center capacity will grow.", "Next part here ok."]
    ∧ "The data center capacity will grow.".data.getLast? = some '.'
    ∧ isSentenceEnd '.' = true :=
  ⟨rfl, rfl, rfl, rfl⟩

/-- C9, amended: a sentence terminator is consumed by the segmentation only
when followed by whitespace (a text with no such occurrence is returned as a
single segment); a Claim text produced from a non-final sentence does not
include the consumed terminator but may still end with another terminator
character; and the final segment retains a terminator standing at
end-of-string.  Every Claim text is the stripped form of one segment. -/
theorem claims_C9 :
    (∀ text : String, hasSplitPoint text.data = false →
        splitSentences text = [text])
    ∧ (∀ (text : String) (c : Char), text.data.getLast? = some c →
        isSentenceEnd c = true →
        ∃ s, (splitSentences text).getLast? = some s
          ∧ s.data.getLast? = some c)
    ∧ (∀ now text u t cl, cl ∈ extract_claims_from_text now text u t →
        ∃ s ∈ splitSentences text, cl.text = pyStrip s) := by
  refine ⟨?_, ?_, ?_⟩
  · intro text h
    unfold splitSentences
    rw [splitAux_no_split text.data [] h]
    simp [string_mk_data]
  · intro text c h ht
    exact splitAux_getLast_term text.data false [] c h ht
  · intro now text u t cl hcl
    obtain ⟨s, hs, rfl, _, _, _⟩ := mem_extract_claims now text u t cl hcl
    exact ⟨s, hs, rfl⟩

/-- Witness for the amended C9, exercising all three parts at concrete
inputs. -/
theorem claims_C9_witness :
    splitSentences "No separator occurs here" = ["No separator occurs here"]
    ∧ (∃ s, (splitSentences "The answer is yes.").getLast? = some s
        ∧ s.data.getLast? = some '.')
    ∧ (∃ s ∈ splitSentences
          "The data center will require 50 MW of new capacity.",
        claimW.text = pyStrip s) :=
  ⟨claims_C9.1 "No separator occurs here" rfl,
   claims_C9.2.1 "The answer is yes." '.' rfl rfl,
   claims_C9.2.2 "T0" "The data center will require 50 MW of new capacity."
     "https://example.com/p" "S" claimW (by decide)⟩

/-- C10: a register row with a title cell but no usable anchor href still
yields a record carrying its title and date with an absent URL; the
orchestrator produces no claims from a URL-less record, which is still
counted by `total_sources`. -/
theorem claims_C10 :
    (∀ base city term row tc, Node.findFirst isTitleCell row = some tc →
        hrefValue (tc.findFirst (isTag "a")) = none →
        ∃ r, parseLegistarRow base city term row = some r
          ∧ r.url = none ∧ r.title = getTextStripped tc)
    ∧ (∀ env now src, src.url = none → claimsForSource env now src = [])
    ∧ (∀ env now, (run_full_scrape env now).total_sources
        = (run_full_scrape env now).sources.length) := by
  refine ⟨?_, ?_, fun env now => rfl⟩
  · intro base city term row tc htc hhref
    refine ⟨{ type := "legistar_legislation", origin := city,
              title := getTextStripped tc, url := none,
              date := (match row.findFirst isDateCell with
                       | some dc => getTextStripped dc
                       | none => "N/A"),
              search_term := some term }, ?_, rfl, rfl⟩
    simp only [parseLegistarRow, htc, hhref]
  · intro env now src h
    unfold claimsForSource
    rw [h]

/-- Witness for C10: `rowNoLink` yields a URL-less record with its title, the
corresponding record contributes no claims, and the totals of the demo run
match. -/
theorem claims_C10_witness :
    (∃ r, parseLegistarRow "https://santaclara.legistar.com" "santaclara"
        "data center" rowNoLink = some r
        ∧ r.url = none ∧ r.title = getTextStripped tdTitleNoLink)
    ∧ claimsForSource envDemo "T0" recLegNoLink = []
    ∧ (run_full_scrape envDemo "T0").total_sources
        = (run_full_scrape envDemo "T0").sources.length :=
  ⟨claims_C10.1 "https://santaclara.legistar.com" "santaclara" "data center"
      rowNoLink tdTitleNoLink rfl rfl,
   claims_C10.2.1 envDemo "T0" recLegNoLink rfl,
   claims_C10.2.2 envDemo "T0"⟩

end DeCenter
